import Mathlib

/-!
Shallow embedding of src/aws_resource_count.py.

The program enumerates AWS resource counts per service across regions and
accounts, retries failing list calls, aggregates per-service totals by
integer addition, and renders counts and workload units.  Network calls,
sessions and pagination are external collaborators: each embedded function
takes the data those calls would return as an explicit argument.  Python
integers are modelled as Int; the float arithmetic in print_results
(multiplication by 1.1 and true division) is modelled as exact fractions
with an explicit numerator/denominator pair, and the Python built-in round
is modelled as round-half-to-even.
-/

namespace ARC

/-- The six service keys of SERVICES_CONF (the Python dict keys
"ec2", "lambda", "ecr", "ami", "ecs", "eks"); the key "lambda" is spelled
lambdaFn because lambda is a Lean keyword. -/
inductive Service where
  | ec2
  | lambdaFn
  | ecr
  | ami
  | ecs
  | eks
deriving DecidableEq, Repr

/-- The insertion order of SERVICES_CONF, which is the iteration order of
the Python dict in get_cove_region_resources, current_account_resources_count
and print_results. -/
def SERVICES : List Service :=
  [Service.ec2, Service.lambdaFn, Service.ecr, Service.ami, Service.ecs, Service.eks]

/-- The display_name field of each entry of SERVICES_CONF. -/
def display_name : Service → String
  | Service.ec2 => "Virtual Machines"
  | Service.lambdaFn => "Serverless Functions"
  | Service.ecr => "Container Images"
  | Service.ami => "VM Images"
  | Service.ecs => "Serverless Containers"
  | Service.eks => "Container Hosts"

/-- The workload_units field of each entry of SERVICES_CONF (the per-service
divisor used by print_results). -/
def workload_units : Service → Int
  | Service.ec2 => 1
  | Service.lambdaFn => 50
  | Service.ecr => 10
  | Service.ami => 1
  | Service.ecs => 10
  | Service.eks => 1

/-- Outcome of one attempt of a wrapped lister: the Python function either
returns an int or raises an exception whose str() is the message. -/
inductive Attempt where
  | ok (v : Int)
  | err (msg : String)
deriving DecidableEq, Repr

/-- Result of one retry-guarded lister invocation.  value is the returned
count; enumError is the single enumeration error recorded by
log_enumeration_failure when all attempts raised (the Python code records it
by setting the global has_enumeration_errors flag and logging the account id
and the last error message). -/
structure RetryResult where
  value : Int
  enumError : Option String
deriving DecidableEq, Repr

/-- The for loop of the retry wrapper (lines 59 to 65): fuel is the number of
attempts left out of retries = 3, start is the index of the next attempt, and
error holds str(e) of the most recent exception.  When fuel runs out the
wrapper falls through to log_enumeration_failure and returns 0. -/
def retryLoop (f : Nat → Attempt) : Nat → Nat → String → RetryResult
  | _, 0, error => ⟨0, some error⟩
  | start, fuel + 1, _error =>
    match f start with
    | Attempt.ok v => ⟨v, none⟩
    | Attempt.err e => retryLoop f (start + 1) fuel e

/-- The retry decorator (lines 53 to 69): attempt the wrapped lister up to
retries = 3 times; return the first successful value, or record one
enumeration error with the last message and return 0.  f i is the outcome the
wrapped lister would produce on attempt i. -/
def retry (f : Nat → Attempt) : RetryResult :=
  retryLoop f 0 3 ""

/-- Body of get_region_instances (lines 89 to 99), with the paginated
describe_instances response supplied as data: pages is the list of pages, each
page a list of reservations, each reservation its Instances list (instances
are left abstract).  The Python loop does count += len(sub_list.get("Instances", []))
for every reservation of every page. -/
def get_region_instances {α : Type} (pages : List (List (List α))) : Nat :=
  pages.foldl (fun count page =>
    page.foldl (fun count sub_list => count + sub_list.length) count) 0

/-- The VmImage dataclass (lines 28 to 31); create_time is a timestamp in
seconds (datetime modelled as Int seconds on a global timeline). -/
structure VmImage where
  id : String
  create_time : Int
deriving DecidableEq, Repr

/-- Thirty days of datetime.timedelta(days=30), in seconds. -/
def thirtyDays : Int := 30 * 86400

/-- is_image_used (lines 126 to 146), instrumented with whether the
describe_image_attribute lookup ran.  lastLaunched is the value the nested
get_image_last_used_time would return (none when the LastLaunchedTime
attribute is absent or unset); now is datetime.datetime.now.  The second
component records whether the last-launch attribute was queried: the Python
code returns True at line 140, before calling get_image_last_used_time,
whenever create_time is within the threshold. -/
def is_image_used_traced (vm_image : VmImage) (lastLaunched : Option Int)
    (now : Int) : Bool × Bool :=
  let last_valid_use_date := now - thirtyDays
  if vm_image.create_time > last_valid_use_date then
    (true, false)
  else
    match lastLaunched with
    | some last_used => (decide (last_used > last_valid_use_date), true)
    | none => (false, true)

/-- is_image_used as the Python caller sees it: just the boolean. -/
def is_image_used (vm_image : VmImage) (lastLaunched : Option Int)
    (now : Int) : Bool :=
  (is_image_used_traced vm_image lastLaunched now).1

/-- Body of get_region_vm_images (lines 149 to 160) after pagination: given
the accumulated vm_images list, the per-image last-launch attribute (keyed by
image id) and now, count the images for which is_image_used holds
(len of the filtered id list at line 159). -/
def get_region_vm_images (vm_images : List VmImage)
    (lastLaunched : String → Option Int) (now : Int) : Nat :=
  (vm_images.filter (fun vm_image =>
    is_image_used vm_image (lastLaunched vm_image.id) now)).length

/-- A per-service count map.  The Python dicts are defaultdict(int) whose key
set is exactly the keys of SERVICES_CONF, so a total function on Service is
the faithful model. -/
abbrev SMap : Type := Service → Int

/-- get_cove_region_resources (lines 220 to 224): starting from
defaultdict(int), add each retry-guarded lister result once per service.
counts s is the value conf["function"](session, s) returns (the retry wrapper
never raises). -/
def get_cove_region_resources (counts : Service → Int) : SMap :=
  fun s => 0 + counts s

/-- current_account_resources_count (lines 227 to 234): fold over ALL_REGIONS
(regions, as strings) and, per region, over SERVICES_CONF, doing
total_results[service] += conf["function"](session, service, region).
counts r s is that call result for region r and service s. -/
def current_account_resources_count (regions : List String)
    (counts : String → Service → Int) : SMap :=
  regions.foldl (fun total_results r =>
    fun s => total_results s + counts r s) (fun _ => 0)

/-- The aggregation loop of main (lines 343 to 345): for each member-account
result map in results_of_all_regions["Results"], add every entry into
total_results.  Each Result dict has exactly the SERVICES_CONF keys, since it
was produced by get_cove_region_resources. -/
def aggregate (total_results : SMap) (results : List SMap) : SMap :=
  results.foldl (fun total_results result =>
    fun s => total_results s + result s) total_results

/-- An exact fraction num / den, used to model the Python float values of
print_results (count * 1.1 and count / workload_units) without rounding
error.  Every fraction built by the embedding has a positive denominator. -/
structure Frac where
  num : Int
  den : Int
deriving DecidableEq, Repr

/-- The Python built-in round on the exact value n / d (d positive): round
half to even.  f is the floor of the quotient and r2 compares twice the
remainder against the denominator to classify the fractional part as below,
above, or exactly one half. -/
def roundHalfEven (n d : Int) : Int :=
  let f := Int.fdiv n d
  let r2 := 2 * (n - f * d)
  if r2 < d then f
  else if d < r2 then f + 1
  else if f % 2 = 0 then f else f + 1

/-- Lines 242 and 243 of print_results: the count variable after the
conditional rebinding count = count * 1.1 for the "ecr" service (1.1 taken
exactly as 11 / 10), as a fraction of the original integer count. -/
def corrected_count (service : Service) (count : Int) : Frac :=
  if service = Service.ecr then ⟨count * 11, 10⟩ else ⟨count, 1⟩

/-- One rendered line of print_results: the display name, the displayed
round(count), and the workload units printed for one service. -/
structure PrintLine where
  display : String
  count_displayed : Int
  workloads : Int
deriving DecidableEq, Repr

/-- The body of the print_results loop (lines 241 to 248) for one service:
count = count * 1.1 when the service is "ecr"; workloads =
round(count / SERVICES_CONF[service]["workload_units"]); if workloads == 0
and count > 0 then workloads = 1; the line shows round(count) and
workloads.  Dividing the fraction num / den by the integer divisor gives
num / (den * divisor); count > 0 on a positive-denominator fraction is
0 < num. -/
def print_results_step (service : Service) (results : SMap) : PrintLine :=
  let count := corrected_count service (results service)
  let workloads := roundHalfEven count.num (count.den * workload_units service)
  let workloads := if workloads = 0 ∧ 0 < count.num then 1 else workloads
  ⟨display_name service, roundHalfEven count.num count.den, workloads⟩

/-- print_results (lines 237 to 251) on the enabled-service iteration order:
the loop reads results.items(), threads the results dict through unchanged
(the body only rebinds the local count), appends one line per service and
accumulates total_workloads += workloads.  The returned triple is the dict
after the call, the rendered lines, and total_workloads. -/
def print_results (results : SMap) : SMap × List PrintLine × Int :=
  SERVICES.foldl (fun st service =>
    let line := print_results_step service st.1
    (st.1, st.2.1 ++ [line], st.2.2 + line.workloads)) (results, [], 0)

/-- The cove(...) return value used by main: Results carries one per-service
map per successfully enumerated member account, and Exceptions and
FailedAssumeRole carry the provider-level failures (modelled by their
account identifiers). -/
structure CoveOutput where
  Results : List SMap
  Exceptions : List String
  FailedAssumeRole : List String

/-- Outcome of the cove call in main: either it returns a CoveOutput, or it
raises the AttributeError whose text names organization_account_ids, the
signal that the current account is not part of an organization
(line 356). -/
inductive CoveCall where
  | ok (out : CoveOutput)
  | noOrgAttributeError

/-- Observable outcome of the organization branch of main (lines 334 to
360): the argument of the final print_results(total_results) call when it is
reached, whether the one-time no-organization notice was logged, how many
provider errors were warned about (len of Exceptions + FailedAssumeRole),
and whether this branch set the has_enumeration_errors flag (it never calls
log_enumeration_failure). -/
structure OrgRunReport where
  printed_totals : Option SMap
  no_org_notice : Bool
  errors_warned : Nat
  sets_has_enumeration_errors : Bool

/-- The else branch of main (lines 334 to 360).  On a successful cove call
the member results are folded into total_results (lines 343 to 345) and the
sum is printed (line 348), then the provider errors are counted (line 350).
When cove raises the no-organization AttributeError, the whole try body
after the cove call is skipped: only the one-time notice is logged, nothing
is printed, and no error is recorded. -/
def main_org_branch (total_results : SMap) (call : CoveCall) : OrgRunReport :=
  match call with
  | CoveCall.ok out =>
    { printed_totals := some (aggregate total_results out.Results)
      no_org_notice := false
      errors_warned := (out.Exceptions ++ out.FailedAssumeRole).length
      sets_has_enumeration_errors := false }
  | CoveCall.noOrgAttributeError =>
    { printed_totals := none
      no_org_notice := true
      errors_warned := 0
      sets_has_enumeration_errors := false }

/-! Sample concrete data used by witness statements. -/

/-- A sample member-account result map: 3 virtual machines. -/
def sampleMapA : SMap := fun s => if s = Service.ec2 then 3 else 0

/-- A sample member-account result map: 2 serverless functions. -/
def sampleMapB : SMap := fun s => if s = Service.lambdaFn then 2 else 0

/-- A sample direct-account total map: one resource of every kind. -/
def sampleDirect : SMap := fun _ => 1

/-- A sample results map holding 100 container-image repositories. -/
def sampleEcr100 : SMap := fun s => if s = Service.ecr then 100 else 0

/-- A sample lister-attempt trace: two failures, then success with 5. -/
def sampleAttempts : Nat → Attempt :=
  fun i => match i with
    | 0 => Attempt.err "e0"
    | 1 => Attempt.err "e1"
    | _ => Attempt.ok 5

/-- A sample constant per-service count of 2. -/
def sampleCounts : Service → Int := fun _ => 2

/-! Helper lemmas. -/

/-- Applying a fold that adds g x pointwise into a map equals the initial
map plus the list sum, pointwise. -/
theorem foldl_add_apply {α : Type} (g : α → Service → Int) (l : List α)
    (init : Service → Int) (s : Service) :
    (l.foldl (fun acc x => fun t => acc t + g x t) init) s
      = init s + (l.map (fun x => g x s)).sum := by
  induction l generalizing init with
  | nil => simp
  | cons x xs ih => simp [List.foldl_cons, ih, add_assoc]

/-- Pointwise value of the aggregation loop of main: the incoming total plus
the sum over member results. -/
theorem aggregate_apply (total : SMap) (results : List SMap) (s : Service) :
    aggregate total results s = total s + (results.map (fun m => m s)).sum :=
  foldl_add_apply (fun m => m) results total s

/-- Pointwise value of current_account_resources_count: the sum of the
retry-guarded per-region counts. -/
theorem current_account_apply (regions : List String)
    (counts : String → Service → Int) (s : Service) :
    current_account_resources_count regions counts s
      = (regions.map (fun r => counts r s)).sum := by
  have h := foldl_add_apply (fun r => counts r) regions (fun _ => 0) s
  simpa [current_account_resources_count] using h

/-- C1: the organization total per resource kind is the direct account total
plus the sum over all successfully enumerated member accounts of that
account's counts, merged by plain integer addition; it is invariant under
reordering of member accounts and of regions, and the printed organization
total in main depends only on the Results list, so no successfully
enumerated account is dropped or double counted and role-assumption failures
(held in FailedAssumeRole, not in Results) are not folded into it. -/
theorem org_totals_eq_direct_plus_members
    (direct : SMap) (members members2 : List SMap) (hm : members.Perm members2)
    (regions regions2 : List String) (hr : regions.Perm regions2)
    (counts : String → Service → Int) (out : CoveOutput) (s : Service)
    (hout : out.Results = members) :
    aggregate direct members s = direct s + (members.map (fun m => m s)).sum
    ∧ aggregate direct members2 s = aggregate direct members s
    ∧ current_account_resources_count regions2 counts s
        = current_account_resources_count regions counts s
    ∧ (main_org_branch direct (CoveCall.ok out)).printed_totals
        = some (fun t => direct t + (members.map (fun m => m t)).sum) := by
  refine ⟨aggregate_apply direct members s, ?_, ?_, ?_⟩
  · rw [aggregate_apply, aggregate_apply]
    exact congrArg (direct s + ·) ((hm.symm.map (fun m => m s)).sum_eq)
  · rw [current_account_apply, current_account_apply]
    exact (hr.symm.map (fun r => counts r s)).sum_eq
  · show some (aggregate direct out.Results) = _
    exact congrArg some (funext (fun t => hout ▸ aggregate_apply direct out.Results t))

/-- Witness for C1 at concrete data: two member accounts, swapped orders of
accounts and regions, and a cove output with a failed-assume-role entry that
does not disturb the printed totals. -/
theorem org_totals_eq_direct_plus_members_witness :
    [sampleMapA, sampleMapB].Perm [sampleMapB, sampleMapA]
    ∧ ["us-east-1", "eu-west-1"].Perm ["eu-west-1", "us-east-1"]
    ∧ (aggregate sampleDirect [sampleMapA, sampleMapB] Service.ec2
        = sampleDirect Service.ec2
          + ([sampleMapA, sampleMapB].map (fun m => m Service.ec2)).sum
      ∧ aggregate sampleDirect [sampleMapB, sampleMapA] Service.ec2
        = aggregate sampleDirect [sampleMapA, sampleMapB] Service.ec2
      ∧ current_account_resources_count ["eu-west-1", "us-east-1"]
          (fun _ _ => 2) Service.ec2
        = current_account_resources_count ["us-east-1", "eu-west-1"]
          (fun _ _ => 2) Service.ec2
      ∧ (main_org_branch sampleDirect
          (CoveCall.ok ⟨[sampleMapA, sampleMapB], [], ["222222222222"]⟩)).printed_totals
        = some (fun t => sampleDirect t
            + ([sampleMapA, sampleMapB].map (fun m => m t)).sum)) :=
  ⟨List.Perm.swap sampleMapB sampleMapA [],
   List.Perm.swap "eu-west-1" "us-east-1" [],
   org_totals_eq_direct_plus_members sampleDirect [sampleMapA, sampleMapB]
     [sampleMapB, sampleMapA] (List.Perm.swap sampleMapB sampleMapA [])
     ["us-east-1", "eu-west-1"] ["eu-west-1", "us-east-1"]
     (List.Perm.swap "eu-west-1" "us-east-1" [])
     (fun _ _ => 2) ⟨[sampleMapA, sampleMapB], [], ["222222222222"]⟩
     Service.ec2 rfl⟩

/-- C2: the retry guard consults only attempts 0, 1 and 2 (so at most 3
attempts run); the first successful attempt ends the loop with that value and
no recorded enumeration error; when all three attempts raise, the guard
returns 0 and records exactly one enumeration error carrying the last
attempt's message.  The wrapper is a total function into RetryResult, so the
failure never propagates outward. -/
theorem retry_at_most_three_attempts (f g : Nat → Attempt)
    (e0 e1 e2 : String) (v : Int)
    (hfg : ∀ i, i < 3 → f i = g i) :
    retry f = retry g
    ∧ (f 0 = Attempt.ok v → retry f = ⟨v, none⟩)
    ∧ (f 0 = Attempt.err e0 → f 1 = Attempt.ok v → retry f = ⟨v, none⟩)
    ∧ (f 0 = Attempt.err e0 → f 1 = Attempt.err e1 → f 2 = Attempt.ok v →
        retry f = ⟨v, none⟩)
    ∧ (f 0 = Attempt.err e0 → f 1 = Attempt.err e1 → f 2 = Attempt.err e2 →
        retry f = ⟨0, some e2⟩) := by
  have h0 := hfg 0 (by omega)
  have h1 := hfg 1 (by omega)
  have h2 := hfg 2 (by omega)
  refine ⟨?_, ?_, ?_, ?_, ?_⟩
  · cases c0 : g 0 <;> cases c1 : g 1 <;> cases c2 : g 2 <;>
      simp [retry, retryLoop, h0, h1, h2, c0, c1, c2]
  · intro ha
    simp [retry, retryLoop, ha]
  · intro ha hb
    simp [retry, retryLoop, ha, hb]
  · intro ha hb hc
    simp [retry, retryLoop, ha, hb, hc]
  · intro ha hb hc
    simp [retry, retryLoop, ha, hb, hc]

/-- Witness for C2: an attempt trace failing twice then succeeding with 5;
the guard ignores attempt indices from 3 on. -/
theorem retry_at_most_three_attempts_witness :
    (∀ i, i < 3 → sampleAttempts i = sampleAttempts i)
    ∧ (retry sampleAttempts = retry sampleAttempts
      ∧ (sampleAttempts 0 = Attempt.ok 5 → retry sampleAttempts = ⟨5, none⟩)
      ∧ (sampleAttempts 0 = Attempt.err "e0" → sampleAttempts 1 = Attempt.ok 5 →
          retry sampleAttempts = ⟨5, none⟩)
      ∧ (sampleAttempts 0 = Attempt.err "e0" → sampleAttempts 1 = Attempt.err "e1" →
          sampleAttempts 2 = Attempt.ok 5 → retry sampleAttempts = ⟨5, none⟩)
      ∧ (sampleAttempts 0 = Attempt.err "e0" → sampleAttempts 1 = Attempt.err "e1" →
          sampleAttempts 2 = Attempt.err "e2" → retry sampleAttempts = ⟨0, some "e2"⟩)) :=
  ⟨fun _ _ => rfl,
   retry_at_most_three_attempts sampleAttempts sampleAttempts "e0" "e1" "e2" 5
     (fun _ _ => rfl)⟩

/-- The value returned by the retry loop is a successful attempt value or 0,
hence non-negative whenever every successful attempt value is. -/
theorem retryLoop_value_nonneg (f : Nat → Attempt)
    (hf : ∀ i w, f i = Attempt.ok w → 0 ≤ w) :
    ∀ fuel start error, 0 ≤ (retryLoop f start fuel error).value := by
  intro fuel
  induction fuel with
  | zero => intro start error; simp [retryLoop]
  | succ n ih =>
    intro start error
    cases c : f start with
    | ok w => simpa [retryLoop, c] using hf start w c
    | err e => simpa [retryLoop, c] using ih (start + 1) e

/-- C10: non-negativity is preserved end to end.  If every successful
attempt of a wrapped lister yields a non-negative count, the retry guard
returns a non-negative count; a per-region result map built by
get_cove_region_resources from non-negative guard results is non-negative;
and folding non-negative member maps into a non-negative running total keeps
every organization total non-negative. -/
theorem retry_nonneg (f : Nat → Attempt)
    (hf : ∀ i w, f i = Attempt.ok w → 0 ≤ w)
    (counts : Service → Int) (hc : ∀ t, 0 ≤ counts t)
    (direct : SMap) (hd : ∀ t, 0 ≤ direct t)
    (members : List SMap) (hm : ∀ m ∈ members, ∀ t, 0 ≤ m t)
    (s : Service) :
    0 ≤ (retry f).value
    ∧ 0 ≤ get_cove_region_resources counts s
    ∧ 0 ≤ aggregate direct members s := by
  refine ⟨retryLoop_value_nonneg f hf 3 0 "", ?_, ?_⟩
  · simpa [get_cove_region_resources] using hc s
  · rw [aggregate_apply]
    have hsum : 0 ≤ ((members.map (fun m => m s)).sum : Int) := by
      apply List.sum_nonneg
      intro x hx
      rcases List.mem_map.mp hx with ⟨m, hmem, rfl⟩
      exact hm m hmem s
    exact add_nonneg (hd s) hsum

/-- Witness for C10: a lister succeeding with 5, constant per-service counts
of 2, the sample direct totals and one member map. -/
theorem retry_nonneg_witness :
    (∀ i w, sampleAttempts i = Attempt.ok w → 0 ≤ w)
    ∧ (∀ t, 0 ≤ sampleCounts t)
    ∧ (∀ t, 0 ≤ sampleDirect t)
    ∧ (∀ m ∈ [sampleMapA], ∀ t, 0 ≤ m t)
    ∧ (0 ≤ (retry sampleAttempts).value
      ∧ 0 ≤ get_cove_region_resources sampleCounts Service.ecr
      ∧ 0 ≤ aggregate sampleDirect [sampleMapA] Service.ecr) := by
  have hf : ∀ i w, sampleAttempts i = Attempt.ok w → 0 ≤ w := by
    intro i w h
    match i, h with
    | 0, h => exact absurd h (by simp [sampleAttempts])
    | 1, h => exact absurd h (by simp [sampleAttempts])
    | n + 2, h =>
      have h5 : (5 : Int) = w := by
        have h2 : Attempt.ok (5 : Int) = Attempt.ok w := h
        injection h2
      omega
  have hc : ∀ t, 0 ≤ sampleCounts t := fun t => by simp [sampleCounts]
  have hd : ∀ t, 0 ≤ sampleDirect t := fun t => by simp [sampleDirect]
  have hm : ∀ m ∈ [sampleMapA], ∀ t, 0 ≤ m t := by
    intro m hmem t
    rw [List.mem_singleton] at hmem
    subst hmem
    cases t <;> simp [sampleMapA]
  exact ⟨hf, hc, hd, hm,
    retry_nonneg sampleAttempts hf sampleCounts hc sampleDirect hd [sampleMapA] hm
      Service.ecr⟩

/-- Inner reservation loop of get_region_instances: folding instance-list
lengths over the reservations of one page adds the page's flattened instance
total. -/
theorem page_foldl_length {α : Type} (page : List (List α)) (c : Nat) :
    page.foldl (fun count sub_list => count + sub_list.length) c
      = c + (page.map List.length).sum := by
  induction page generalizing c with
  | nil => simp
  | cons r rs ih => simp [List.foldl_cons, ih, Nat.add_assoc]

/-- C7: the VM-instance lister counts the flattened total of instances
across all reservations of every page, i.e. the sum over pages over
reservations of the instance-list lengths — not the number of
reservations. -/
theorem instances_flattened_count {α : Type} (pages : List (List (List α))) :
    get_region_instances pages
      = (pages.map (fun page => (page.map List.length).sum)).sum := by
  unfold get_region_instances
  suffices h : ∀ c : Nat, pages.foldl (fun count page =>
      page.foldl (fun count sub_list => count + sub_list.length) count) c
      = c + (pages.map (fun page => (page.map List.length).sum)).sum by
    simpa using h 0
  induction pages with
  | nil => intro c; simp
  | cons p ps ih =>
    intro c
    rw [List.foldl_cons, page_foldl_length, ih, List.map_cons, List.sum_cons,
      Nat.add_assoc]

/-- C8: print_results does not mutate its input map: the results dict after
the call equals the dict passed in; the container-image correction and the
display rounding live only in the local count variable of the loop body. -/
theorem print_results_no_mutation (results : SMap) :
    (print_results results).1 = results := by
  unfold print_results
  suffices h : ∀ (l : List Service) (st : SMap × List PrintLine × Int),
      (l.foldl (fun st service =>
        let line := print_results_step service st.1
        (st.1, st.2.1 ++ [line], st.2.2 + line.workloads)) st).1 = st.1 by
    exact h SERVICES (results, [], 0)
  intro l
  induction l with
  | nil => intro st; rfl
  | cons x xs ih => intro st; exact ih _

/-- C9: the usage filter short-circuits on creation time: when the creation
time is within the 30-day threshold, is_image_used returns True without
querying the last-launch attribute, and the traced run is identical for any
two values the last-launch lookup could produce. -/
theorem usage_filter_short_circuit (vm_image : VmImage) (o1 o2 : Option Int)
    (now : Int) (h : now - thirtyDays < vm_image.create_time) :
    is_image_used_traced vm_image o1 now = (true, false)
    ∧ is_image_used_traced vm_image o1 now = is_image_used_traced vm_image o2 now := by
  constructor
  · simp [is_image_used_traced, if_pos h]
  · simp [is_image_used_traced, if_pos h]

/-- Witness for C9: an image created at time 100 with now = 50 (creation
within 30 days of now), one absent and one present last-launch value. -/
theorem usage_filter_short_circuit_witness :
    ((50 : Int) - thirtyDays < (VmImage.mk "ami-new" 100).create_time)
    ∧ (is_image_used_traced (VmImage.mk "ami-new" 100) none 50 = (true, false)
      ∧ is_image_used_traced (VmImage.mk "ami-new" 100) none 50
        = is_image_used_traced (VmImage.mk "ami-new" 100) (some 0) 50) :=
  ⟨by decide,
   usage_filter_short_circuit (VmImage.mk "ami-new" 100) none (some 0) 50 (by decide)⟩

/-- C3 counterexample: in the no-organization degraded mode the final
print_results(total_results) call is never reached (it sits inside the try
block after the cove call), so the printed report does not equal the
direct-account totals — nothing is printed at all. -/
theorem no_org_prints_no_report_cex :
    ¬ (main_org_branch sampleDirect CoveCall.noOrgAttributeError).printed_totals
      = some sampleDirect := by
  simp [main_org_branch]

/-- C3 amended: when the session provider signals that the current account
is not part of an organization, main emits the one-time informational
notice, records no enumeration error and zero provider failures, but prints
no final report: the direct-account totals computed before the fan-out are
left unprinted because the final print_results call is skipped together with
the rest of the try block. -/
theorem no_org_degraded_mode (direct : SMap) :
    main_org_branch direct CoveCall.noOrgAttributeError
      = { printed_totals := none
          no_org_notice := true
          errors_warned := 0
          sets_has_enumeration_errors := false } := rfl

/-- C6: a VM image is classified used exactly when its creation time is
within 30 days of now or its last-launch attribute is present with a
timestamp within 30 days of now; a stale image (filter false, in particular
an old image with an absent last-launch attribute) does not contribute to
the used-image count of get_region_vm_images. -/
theorem vm_image_usage_filter (vm_image : VmImage)
    (lastLaunched : String → Option Int) (now : Int) (vm_images : List VmImage) :
    (is_image_used vm_image (lastLaunched vm_image.id) now = true ↔
      (now - thirtyDays < vm_image.create_time
        ∨ ∃ t, lastLaunched vm_image.id = some t ∧ now - thirtyDays < t))
    ∧ (is_image_used vm_image (lastLaunched vm_image.id) now = false →
        get_region_vm_images (vm_image :: vm_images) lastLaunched now
          = get_region_vm_images vm_images lastLaunched now) := by
  constructor
  · cases hll : lastLaunched vm_image.id with
    | none =>
      by_cases hc : now - thirtyDays < vm_image.create_time <;>
        simp [is_image_used, is_image_used_traced, hll, hc]
    | some t =>
      by_cases hc : now - thirtyDays < vm_image.create_time <;>
        simp [is_image_used, is_image_used_traced, hll, hc]
  · intro hstale
    simp [get_region_vm_images, List.filter_cons, hstale]

/-- Witness for C6, all at now = 90 days: an image created at time 0 but
launched 10 days before now satisfies the usage iff through its last-launch
timestamp, and an image created at time 0 with no last-launch attribute is
stale and drops out of the count over the singleton list holding a fresh
image. -/
theorem vm_image_usage_filter_witness :
    is_image_used (VmImage.mk "ami-old" 0) ((fun _ => none) (VmImage.mk "ami-old" 0).id)
      (thirtyDays * 3) = false
    ∧ (is_image_used (VmImage.mk "ami-launched" 0)
        ((fun _ => some (thirtyDays * 3 - 10 * 86400)) (VmImage.mk "ami-launched" 0).id)
        (thirtyDays * 3) = true ↔
      (thirtyDays * 3 - thirtyDays < (VmImage.mk "ami-launched" 0).create_time
        ∨ ∃ t, (fun _ => (some (thirtyDays * 3 - 10 * 86400) : Option Int))
            (VmImage.mk "ami-launched" 0).id = some t
            ∧ thirtyDays * 3 - thirtyDays < t))
    ∧ get_region_vm_images [VmImage.mk "ami-old" 0, VmImage.mk "ami-fresh" (thirtyDays * 3)]
        (fun _ => none) (thirtyDays * 3)
      = get_region_vm_images [VmImage.mk "ami-fresh" (thirtyDays * 3)]
        (fun _ => none) (thirtyDays * 3) := by
  have hstale : is_image_used (VmImage.mk "ami-old" 0)
      ((fun _ => (none : Option Int)) (VmImage.mk "ami-old" 0).id)
      (thirtyDays * 3) = false := by decide
  exact ⟨hstale,
    (vm_image_usage_filter (VmImage.mk "ami-launched" 0)
      (fun _ => some (thirtyDays * 3 - 10 * 86400)) (thirtyDays * 3) []).1,
    (vm_image_usage_filter (VmImage.mk "ami-old" 0) (fun _ => none)
      (thirtyDays * 3) [VmImage.mk "ami-fresh" (thirtyDays * 3)]).2 hstale⟩

/-- Rounding an exact zero yields zero for any positive denominator. -/
theorem roundHalfEven_zero (d : Int) (hd : 0 < d) : roundHalfEven 0 d = 0 := by
  simp [roundHalfEven, Int.zero_fdiv, hd]

/-- Rounding a non-negative fraction with positive denominator is
non-negative. -/
theorem roundHalfEven_nonneg (n d : Int) (hn : 0 ≤ n) (hd : 0 < d) :
    0 ≤ roundHalfEven n d := by
  have hf : 0 ≤ Int.fdiv n d := Int.fdiv_nonneg hn hd.le
  simp only [roundHalfEven]
  split_ifs <;> linarith [hf]

/-- The denominator of the corrected count times the per-service divisor is
positive for every service. -/
theorem corrected_den_wu_pos (s : Service) (c : Int) :
    0 < (corrected_count s c).den * workload_units s := by
  cases s <;> simp [corrected_count, workload_units]

/-- The printed lines of print_results are one print_results_step line per
enabled service, in iteration order, and the dict component stays the input
map throughout the fold. -/
theorem print_results_lines (results : SMap) :
    (print_results results).2.1
      = SERVICES.map (fun s => print_results_step s results) := by
  unfold print_results
  suffices h : ∀ (l : List Service) (lines : List PrintLine) (tot : Int),
      ((l.foldl (fun st service =>
        let line := print_results_step service st.1
        (st.1, st.2.1 ++ [line], st.2.2 + line.workloads))
        (results, lines, tot)).2.1 : List PrintLine)
      = lines ++ l.map (fun s => print_results_step s results) by
    simpa using h SERVICES [] 0
  intro l
  induction l with
  | nil => intro lines tot; simp
  | cons x xs ih =>
    intro lines tot
    simp only [List.foldl_cons, List.map_cons]
    rw [ih]
    simp

/-- A sample results map holding a single serverless container task (the
"ecs" service has divisor 10 and no correction factor). -/
def sampleEcs1 : SMap := fun s => if s = Service.ecs then 1 else 0

/-- C4: for every enabled service the printed line carries
workload units = round(correctedCount / divisor) with the bump rule — a
strictly positive corrected count contributes at least 1 unit even when the
rounded quotient is 0, and a corrected count of 0 contributes exactly 0
units; in particular divisor 10 with corrected count 1 gives 1 unit. -/
theorem workload_units_rounding (results : SMap) (s : Service)
    (hs : s ∈ SERVICES) :
    print_results_step s results ∈ (print_results results).2.1
    ∧ (print_results_step s results).workloads
        = (if roundHalfEven (corrected_count s (results s)).num
              ((corrected_count s (results s)).den * workload_units s) = 0
            ∧ 0 < (corrected_count s (results s)).num
           then 1
           else roundHalfEven (corrected_count s (results s)).num
              ((corrected_count s (results s)).den * workload_units s))
    ∧ ((corrected_count s (results s)).num = 0 →
        (print_results_step s results).workloads = 0)
    ∧ (0 < (corrected_count s (results s)).num →
        1 ≤ (print_results_step s results).workloads)
    ∧ (workload_units s = 10 → corrected_count s (results s) = ⟨1, 1⟩ →
        (print_results_step s results).workloads = 1) := by
  have hd := corrected_den_wu_pos s (results s)
  refine ⟨?_, rfl, ?_, ?_, ?_⟩
  · rw [print_results_lines]
    exact List.mem_map_of_mem (fun t => print_results_step t results) hs
  · intro h0
    simp only [print_results_step]
    rw [h0, roundHalfEven_zero _ hd]
    simp
  · intro hpos
    have hr : 0 ≤ roundHalfEven (corrected_count s (results s)).num
        ((corrected_count s (results s)).den * workload_units s) :=
      roundHalfEven_nonneg _ _ hpos.le hd
    simp only [print_results_step]
    split_ifs with h
    · omega
    · rw [not_and_or] at h
      rcases h with h | h
      · omega
      · exact absurd hpos h
  · intro hw hc
    simp only [print_results_step]
    rw [hc, hw]
    decide

/-- Witness for C4 on a map holding one serverless container task: the ecs
line shows 1 workload unit, not round(1 / 10) = 0. -/
theorem workload_units_rounding_witness :
    Service.ecs ∈ SERVICES
    ∧ (print_results_step Service.ecs sampleEcs1 ∈ (print_results sampleEcs1).2.1
      ∧ (print_results_step Service.ecs sampleEcs1).workloads
          = (if roundHalfEven (corrected_count Service.ecs (sampleEcs1 Service.ecs)).num
                ((corrected_count Service.ecs (sampleEcs1 Service.ecs)).den
                  * workload_units Service.ecs) = 0
              ∧ 0 < (corrected_count Service.ecs (sampleEcs1 Service.ecs)).num
             then 1
             else roundHalfEven (corrected_count Service.ecs (sampleEcs1 Service.ecs)).num
                ((corrected_count Service.ecs (sampleEcs1 Service.ecs)).den
                  * workload_units Service.ecs))
      ∧ ((corrected_count Service.ecs (sampleEcs1 Service.ecs)).num = 0 →
          (print_results_step Service.ecs sampleEcs1).workloads = 0)
      ∧ (0 < (corrected_count Service.ecs (sampleEcs1 Service.ecs)).num →
          1 ≤ (print_results_step Service.ecs sampleEcs1).workloads)
      ∧ (workload_units Service.ecs = 10 →
          corrected_count Service.ecs (sampleEcs1 Service.ecs) = ⟨1, 1⟩ →
          (print_results_step Service.ecs sampleEcs1).workloads = 1)) :=
  ⟨by decide, workload_units_rounding sampleEcs1 Service.ecs (by decide)⟩

/-- C5: the times-1.1 correction applies to the container-image count and to
no other service: for any other service the corrected count is the raw
count; a raw container-image count of 100 corrects to 1100 / 10 = 110,
displays as 110, and yields 11 workload units with the divisor 10. -/
theorem container_image_correction (s : Service) (c : Int)
    (hs : s ≠ Service.ecr) (results : SMap)
    (h100 : results Service.ecr = 100) :
    corrected_count s c = ⟨c, 1⟩
    ∧ corrected_count Service.ecr 100 = ⟨100 * 11, 10⟩
    ∧ (print_results_step Service.ecr results).count_displayed = 110
    ∧ (print_results_step Service.ecr results).workloads = 11 := by
  refine ⟨by simp [corrected_count, hs], rfl, ?_, ?_⟩
  · simp only [print_results_step, corrected_count, h100]
    decide
  · simp only [print_results_step, corrected_count, h100]
    decide

/-- Witness for C5: the virtual-machine service is uncorrected and the
sample map with 100 container-image repositories prints 110 and 11 units. -/
theorem container_image_correction_witness :
    Service.ec2 ≠ Service.ecr
    ∧ sampleEcr100 Service.ecr = 100
    ∧ (corrected_count Service.ec2 7 = ⟨7, 1⟩
      ∧ corrected_count Service.ecr 100 = ⟨100 * 11, 10⟩
      ∧ (print_results_step Service.ecr sampleEcr100).count_displayed = 110
      ∧ (print_results_step Service.ecr sampleEcr100).workloads = 11) :=
  ⟨by decide, by decide,
   container_image_correction Service.ec2 7 (by decide) sampleEcr100 (by decide)⟩

end ARC
